import Mathlib

/-!
Verification of the reconciliation core of a Zotero → S3 two-way file
synchronizer.  The definitions below are a shallow embedding of
`src/modules/syncMetadata.ts` and `src/modules/syncManager.ts`:

* JS objects keyed by string are modelled as partial maps `String → Option _`;
* JS `number` timestamps and sizes are modelled as `Nat`;
* optional JS fields are `Option _`; JS truthiness of a string is
  "present and non-empty", of a number "present and non-zero";
* `Date.now()` and the outcomes of awaited I/O calls are passed in
  explicitly as parameters / environment records, with `Except Unit α`
  standing for "the awaited call either threw or produced an `α`".
-/

namespace ZoteroS3Sync

/-- Per-file sync record (`FileMetadata` in syncMetadata.ts). -/
structure FileMetadata where
  hash : String
  localMtime : Nat
  remoteMtime : Nat
  lastSyncTime : Nat
  lastSyncHash : String
  size : Nat
deriving DecidableEq, Repr

/-- The default all-empty record used by `updateFileMetadata` when the key is
absent (syncMetadata.ts lines 95-102). -/
def emptyFileMetadata : FileMetadata :=
  { hash := "", localMtime := 0, remoteMtime := 0, lastSyncTime := 0
    lastSyncHash := "", size := 0 }

/-- The whole metadata store (`SyncMetadataStore` in syncMetadata.ts).
The JS object `files` is modelled as a partial map. -/
structure SyncMetadataStore where
  files : String → Option FileMetadata
  lastFullSync : Nat
  version : Nat
  bucketId : Option String

/-- METADATA_VERSION in syncMetadata.ts. -/
def METADATA_VERSION : Nat := 1

/-- JS truthiness of an optional string: present and non-empty. -/
def strTruthy : Option String → Bool
  | none => false
  | some s => s ≠ ""

/-- JS truthiness of an optional number (we model sync timestamps as `Nat`):
present and non-zero. -/
def natTruthy : Option Nat → Bool
  | none => false
  | some n => n ≠ 0

/-- JS `a || b` for an optional string `a` with string fallback `b`. -/
def orElseStr : Option String → String → String
  | some s, b => if s = "" then b else s
  | none, b => b

/-- JS `a || b` for an optional number `a` with fallback `b`. -/
def orElseNat : Option Nat → Nat → Nat
  | some n, b => if n = 0 then b else n
  | none, b => b

/-- `SyncMetadataManager.recordSync` (syncMetadata.ts lines 115-134): the
record for the key is overwritten wholesale, with `lastSyncTime := now`
(`Date.now()` is passed in as `now`) and `lastSyncHash := hash`. -/
def recordSync (st : SyncMetadataStore) (attachmentKey hash : String)
    (localMtime remoteMtime size now : Nat) : SyncMetadataStore :=
  { st with
    files := fun k =>
      if k = attachmentKey then
        some { hash := hash, localMtime := localMtime, remoteMtime := remoteMtime
               lastSyncTime := now, lastSyncHash := hash, size := size }
      else st.files k }

/-- A `Partial<FileMetadata>` argument of `updateFileMetadata`: each field is
present or absent. -/
structure FileMetadataPatch where
  hash : Option String := none
  localMtime : Option Nat := none
  remoteMtime : Option Nat := none
  lastSyncTime : Option Nat := none
  lastSyncHash : Option String := none
  size : Option Nat := none
deriving DecidableEq, Repr

/-- JS spread `{ ...existing, ...patch }`: fields present in the patch win. -/
def applyPatch (base : FileMetadata) (p : FileMetadataPatch) : FileMetadata :=
  { hash := p.hash.getD base.hash
    localMtime := p.localMtime.getD base.localMtime
    remoteMtime := p.remoteMtime.getD base.remoteMtime
    lastSyncTime := p.lastSyncTime.getD base.lastSyncTime
    lastSyncHash := p.lastSyncHash.getD base.lastSyncHash
    size := p.size.getD base.size }

/-- `SyncMetadataManager.updateFileMetadata` (syncMetadata.ts lines 91-110). -/
def updateFileMetadata (st : SyncMetadataStore) (attachmentKey : String)
    (p : FileMetadataPatch) : SyncMetadataStore :=
  let existing := (st.files attachmentKey).getD emptyFileMetadata
  { st with
    files := fun k =>
      if k = attachmentKey then some (applyPatch existing p) else st.files k }

/-- `SyncMetadataManager.removeFileMetadata` (syncMetadata.ts lines 139-142). -/
def removeFileMetadata (st : SyncMetadataStore) (attachmentKey : String) :
    SyncMetadataStore :=
  { st with
    files := fun k => if k = attachmentKey then none else st.files k }

/-- `SyncMetadataManager.mergeWithCloudMetadata` (syncMetadata.ts lines
258-297): cloud records win for keys present in both; a local-only key is kept
only if `lastSyncTime > cloud.lastFullSync` or `cloud.lastFullSync = 0`;
the resulting `lastFullSync` is the max of both sides. -/
def mergeWithCloudMetadata (st cloudMetadata : SyncMetadataStore) :
    SyncMetadataStore :=
  { files := fun k =>
      match cloudMetadata.files k with
      | some r => some r
      | none =>
        match st.files k with
        | some localMeta =>
          if localMeta.lastSyncTime > cloudMetadata.lastFullSync ∨
              cloudMetadata.lastFullSync = 0 then
            some localMeta
          else none
        | none => none
    lastFullSync := max cloudMetadata.lastFullSync st.lastFullSync
    version := METADATA_VERSION
    bucketId := cloudMetadata.bucketId }

/-- `SyncMetadataManager.replaceWithCloudMetadata` (syncMetadata.ts lines
336-339): the local store is discarded and replaced by the cloud store. -/
def replaceWithCloudMetadata (_st cloudMetadata : SyncMetadataStore) :
    SyncMetadataStore :=
  cloudMetadata

/-- The bucket-switch test of `downloadCloudMetadata` (syncManager.ts line
155): `localBucketId && localBucketId !== currentBucketId`. -/
def bucketSwitched (localBucketId : Option String) (currentBucketId : String) :
    Prop :=
  match localBucketId with
  | some lb => lb ≠ "" ∧ lb ≠ currentBucketId
  | none => False

instance (lb : Option String) (cur : String) :
    Decidable (bucketSwitched lb cur) := by
  unfold bucketSwitched
  cases lb <;> infer_instance

/-- Result of `SyncManager.downloadCloudMetadata`: the updated local store,
the `hasCloudMetadata` flag, and the boolean return value. -/
structure CloudFetchResult where
  store : SyncMetadataStore
  hasCloudMetadata : Bool
  ok : Bool

/-- `SyncManager.downloadCloudMetadata` (syncManager.ts lines 135-176).
`blob` is the result of `s3Manager.downloadFile` followed by
`loadFromBlob` (which never fails: parse/version problems yield an empty
store), i.e. `none` exactly when the remote metadata object is absent.
When it is absent the method returns early with `hasCloudMetadata := false`
and the local store untouched; otherwise the store is replaced (bucket
switch) or merged (same bucket), with the cloud snapshot's `bucketId` first
set to the current bucket id. -/
def downloadCloudMetadata (blob : Option SyncMetadataStore)
    (currentBucketId : String) (st : SyncMetadataStore) : CloudFetchResult :=
  match blob with
  | none => { store := st, hasCloudMetadata := false, ok := false }
  | some cloudMetadata =>
    let cloud := { cloudMetadata with bucketId := some currentBucketId }
    if bucketSwitched st.bucketId currentBucketId then
      { store := replaceWithCloudMetadata st cloud
        hasCloudMetadata := true, ok := true }
    else
      { store := mergeWithCloudMetadata st cloud
        hasCloudMetadata := true, ok := true }

/-- A local observation handed to the planner: the entry built in
`compareFilesAndDetermineSyncOperations` from a `SyncItem`.  An item whose
file is missing on disk is represented with empty `hash` and `filePath`
(syncManager.ts lines 496-503). -/
structure LocalFile where
  hash : String
  filePath : String
  modTime : Nat
deriving DecidableEq, Repr

/-- A remote observation (`S3FileMetadata` in s3Client.ts).  `metaMd5` is the
optional content-derived checksum stored as the x-amz-meta-md5 header; `etag`
is always present but not guaranteed content-derived. -/
structure S3FileMetadata where
  key : String
  lastModified : Nat
  size : Nat
  etag : String
  metaMd5 : Option String
deriving DecidableEq, Repr

/-- The tag of a planned operation (`SyncOperationType` in syncManager.ts). -/
inductive SyncOperationType
  | upload
  | download
  | conflict
  | deleteLocal
  | deleteRemote
  | noChange
deriving DecidableEq, Repr

/-- A planned operation (`SyncOperation` in syncManager.ts); the optional
fields carry whatever the decision branch filled in. -/
structure SyncOperation where
  type : SyncOperationType
  attachmentKey : String
  localHash : Option String := none
  remoteETag : Option String := none
  localModTime : Option Nat := none
  remoteModTime : Option Nat := none
  lastSyncHash : Option String := none
  filePath : Option String := none
deriving DecidableEq, Repr

/-- `metadata?.lastSyncHash` (syncManager.ts line 576). -/
def mdLastSyncHash (metadata : Option FileMetadata) : Option String :=
  metadata.map (·.lastSyncHash)

/-- `metadata?.lastSyncTime || 0` (syncManager.ts line 577). -/
def mdLastSyncTime (metadata : Option FileMetadata) : Nat :=
  (metadata.map (·.lastSyncTime)).getD 0

/-- `SyncManager.determineOperation` (syncManager.ts lines 569-845), the
three-way merge decision engine.  `fsize` stands for `this.getFileSize`
(total: it catches internally and returns 0 on failure); the remaining
parameters mirror the TS signature. -/
def determineOperation (attachmentKey : String) (loc : Option LocalFile)
    (rem : Option S3FileMetadata) (metadata : Option FileMetadata)
    (hasCloudMetadata : Bool) (fsize : String → Nat) : SyncOperation :=
  let lastSyncHash := mdLastSyncHash metadata
  let lastSyncTime := mdLastSyncTime metadata
  match loc, rem with
  | some l, some r =>
    -- Case 2: file exists locally and remotely
    if l.hash = "" then
      -- item exists but the local file is missing: recover by downloading
      { type := .download, attachmentKey
        localHash := some l.hash, remoteETag := some r.etag
        remoteModTime := some r.lastModified, filePath := some l.filePath }
    else if ¬ strTruthy lastSyncHash then
      -- first sync for this key: no lastSyncHash available
      let remoteHash := orElseStr r.metaMd5 r.etag
      if l.hash = remoteHash then
        { type := .noChange, attachmentKey
          localHash := some l.hash, remoteETag := some remoteHash
          filePath := some l.filePath, remoteModTime := some r.lastModified }
      else if ¬ strTruthy r.metaMd5 ∧ 0 < r.size ∧ l.filePath ≠ "" ∧
          fsize l.filePath = r.size then
        { type := .noChange, attachmentKey
          localHash := some l.hash, remoteETag := some remoteHash
          filePath := some l.filePath, remoteModTime := some r.lastModified }
      else if r.lastModified ≤ l.modTime then
        { type := .upload, attachmentKey
          localHash := some l.hash, remoteETag := some remoteHash
          filePath := some l.filePath }
      else
        { type := .download, attachmentKey
          localHash := some l.hash, remoteETag := some remoteHash
          filePath := some l.filePath }
    else
      -- subsequent syncs: compare with lastSyncHash
      let lsh := lastSyncHash.getD ""
      let remoteHash := orElseStr r.metaMd5 r.etag
      if ¬ strTruthy r.metaMd5 ∧ l.hash = lsh then
        { type := .noChange, attachmentKey
          localHash := some l.hash, remoteETag := some remoteHash
          filePath := some l.filePath, remoteModTime := some r.lastModified }
      else if ¬ (l.hash ≠ lsh) ∧ ¬ (strTruthy r.metaMd5 ∧ remoteHash ≠ lsh) then
        { type := .noChange, attachmentKey
          localHash := some l.hash, remoteETag := some remoteHash
          filePath := some l.filePath, remoteModTime := some r.lastModified }
      else if l.hash ≠ lsh ∧ ¬ (strTruthy r.metaMd5 ∧ remoteHash ≠ lsh) then
        { type := .upload, attachmentKey
          localHash := some l.hash, remoteETag := some remoteHash
          lastSyncHash := some lsh, filePath := some l.filePath }
      else if ¬ (l.hash ≠ lsh) ∧ (strTruthy r.metaMd5 ∧ remoteHash ≠ lsh) then
        { type := .download, attachmentKey
          localHash := some l.hash, remoteETag := some remoteHash
          lastSyncHash := some lsh, filePath := some l.filePath }
      else
        { type := .conflict, attachmentKey
          localHash := some l.hash, remoteETag := some remoteHash
          localModTime := some l.modTime, remoteModTime := some r.lastModified
          lastSyncHash := some lsh, filePath := some l.filePath }
  | some l, none =>
    -- Case 3: file exists only locally
    if l.hash = "" then
      { type := .noChange, attachmentKey }
    else if ¬ hasCloudMetadata then
      { type := .upload, attachmentKey
        localHash := some l.hash, filePath := some l.filePath }
    else if metadata = none ∨ lastSyncTime = 0 then
      { type := .upload, attachmentKey
        localHash := some l.hash, filePath := some l.filePath }
    else
      { type := .deleteLocal, attachmentKey
        localHash := some l.hash, lastSyncHash := lastSyncHash
        filePath := some l.filePath }
  | none, some r =>
    -- Case 4: file exists only remotely
    if ¬ hasCloudMetadata then
      { type := .download, attachmentKey
        remoteETag := some r.etag, remoteModTime := some r.lastModified }
    else if metadata = none ∨ lastSyncTime = 0 then
      { type := .download, attachmentKey
        remoteETag := some r.etag, remoteModTime := some r.lastModified }
    else
      { type := .deleteRemote, attachmentKey
        remoteETag := some r.etag, lastSyncHash := lastSyncHash }
  | none, none =>
    -- Cases 1 and 5 and the default: nothing to do
    { type := .noChange, attachmentKey }

/-- A metadata-store mutation issued by a per-item executor: either
`metadataManager.recordSync key hash localMtime remoteMtime size` or
`metadataManager.removeFileMetadata key`. -/
inductive StoreAction
  | record (key hash : String) (localMtime remoteMtime size : Nat)
  | remove (key : String)
deriving DecidableEq, Repr

/-- Apply a (possibly absent) store action at a given clock value. -/
def applyStoreAction (st : SyncMetadataStore) (now : Nat) :
    Option StoreAction → SyncMetadataStore
  | none => st
  | some (.record key hash lm rm sz) => recordSync st key hash lm rm sz now
  | some (.remove key) => removeFileMetadata st key

/-- Result of a per-item executor: the boolean it returns and the store
mutation it performed (if any). -/
structure ExecResult where
  success : Bool
  action : Option StoreAction
deriving DecidableEq, Repr

/-- Outcomes of the calls made by `executeUpload`.  `Except Unit α` models an
awaited call that either throws (caught by the executor's try/catch) or
returns an `α`; calls whose TS implementation catches internally are modelled
total. -/
structure UploadEnv where
  /-- `readFileAsBlob` result: it catches internally, `false` = null blob. -/
  readOk : Bool
  /-- `getFileHash` result (catches internally, "" on its own error). -/
  fileHash : String
  /-- `s3Manager.uploadFile` outcome. -/
  uploadResult : Except Unit Bool
  /-- local `getFileModTime` (catches internally). -/
  localMtime : Nat
  /-- `s3Manager.getFileModTime` outcome. -/
  remoteMtime : Except Unit Nat
  /-- `getFileSize` (catches internally). -/
  fileSize : Nat
deriving Repr

/-- `SyncManager.executeUpload` (syncManager.ts lines 941-986). -/
def executeUpload (env : UploadEnv) (op : SyncOperation) : ExecResult :=
  if ¬ strTruthy op.filePath then { success := false, action := none }
  else if ¬ env.readOk then { success := false, action := none }
  else
    match env.uploadResult with
    | .error _ => { success := false, action := none }
    | .ok false => { success := false, action := none }
    | .ok true =>
      match env.remoteMtime with
      | .error _ => { success := false, action := none }
      | .ok rm =>
        { success := true
          action := some (.record op.attachmentKey env.fileHash
            env.localMtime rm env.fileSize) }

/-- Outcomes of the calls made by `executeDownload`. -/
structure DownloadEnv where
  /-- `s3Manager.downloadFile`: throws, returns null (`false`) or a blob. -/
  download : Except Unit Bool
  /-- `getOrCreateAttachmentItem` (catches internally, `false` = null). -/
  itemFound : Bool
  /-- `item.getFilePathAsync` outcome (`none` = falsy result). -/
  getFilePath : Except Unit (Option String)
  /-- `item.attachmentFilename` (`none` = falsy). -/
  attachmentFilename : Option String
  /-- the `IOUtils.makeDirectory` try/catch succeeded. -/
  mkdirOk : Bool
  /-- `writeBlobToFile` outcome. -/
  writeFile : Except Unit Unit
  /-- `getFileHash` of the written file. -/
  fileHash : String
  /-- local `getFileModTime`. -/
  localMtime : Nat
  /-- `getFileSize`. -/
  fileSize : Nat
  /-- `Date.now()` used for `operation.remoteModTime || Date.now()`. -/
  now : Nat
deriving Repr

/-- `SyncManager.executeDownload` (syncManager.ts lines 850-936). -/
def executeDownload (env : DownloadEnv) (op : SyncOperation) : ExecResult :=
  -- once a file path is in hand, write the blob and record the sync
  let finish : ExecResult :=
    match env.writeFile with
    | .error _ => { success := false, action := none }
    | .ok _ =>
      { success := true
        action := some (.record op.attachmentKey env.fileHash env.localMtime
          (orElseNat op.remoteModTime env.now) env.fileSize) }
  match env.download with
  | .error _ => { success := false, action := none }
  | .ok false => { success := false, action := none }
  | .ok true =>
    if ¬ env.itemFound then { success := false, action := none }
    else if strTruthy op.filePath then finish
    else
      match env.getFilePath with
      | .error _ => { success := false, action := none }
      | .ok fp =>
        if strTruthy fp then finish
        else if ¬ strTruthy env.attachmentFilename then
          { success := false, action := none }
        else if ¬ env.mkdirOk then { success := false, action := none }
        else finish

/-- Outcomes of the calls made by `executeDeleteLocal`. -/
structure DeleteLocalEnv where
  /-- `getOrCreateAttachmentItem` (catches internally). -/
  itemFound : Bool
  /-- `pathToFile` / `exists` / `remove` sequence outcome. -/
  removeFile : Except Unit Unit
deriving Repr

/-- `SyncManager.executeDeleteLocal` (syncManager.ts lines 1107-1146). -/
def executeDeleteLocal (env : DeleteLocalEnv) (op : SyncOperation) :
    ExecResult :=
  if ¬ strTruthy op.filePath then { success := false, action := none }
  else if ¬ env.itemFound then { success := false, action := none }
  else
    match env.removeFile with
    | .error _ => { success := false, action := none }
    | .ok _ =>
      { success := true, action := some (.remove op.attachmentKey) }

/-- Outcome of the call made by `executeDeleteRemote`. -/
structure DeleteRemoteEnv where
  /-- `s3Manager.deleteFile` outcome. -/
  deleteResult : Except Unit Bool
deriving Repr

/-- `SyncManager.executeDeleteRemote` (syncManager.ts lines 1151-1172). -/
def executeDeleteRemote (env : DeleteRemoteEnv) (op : SyncOperation) :
    ExecResult :=
  match env.deleteResult with
  | .error _ => { success := false, action := none }
  | .ok false => { success := false, action := none }
  | .ok true =>
    { success := true, action := some (.remove op.attachmentKey) }

/-- One item of `executeConcurrently`'s inner `batch.map`: run the executor,
mapping a thrown error to `success = false` (syncManager.ts lines 87-95).
The promise therefore always fulfills, pairing the item with its outcome. -/
def runItem (exec : α → Except Unit Bool) (t : α) : α × Bool :=
  (t, match exec t with
      | .ok b => b
      | .error _ => false)

/-- `Promise.allSettled` over one batch: every item settles, in order. -/
def runBatch (exec : α → Except Unit Bool) (batch : List α) : List (α × Bool) :=
  batch.map (runItem exec)

/-- The batch loop of `executeConcurrently` (syncManager.ts lines 83-110):
slices of size `b + 1` are settled one after another.  The batch size is
written `b + 1` because the source's `for (let i = 0; ...; i += concurrency)`
loop only terminates for a positive concurrency. -/
def settleBatches (exec : α → Except Unit Bool) (b : Nat) :
    List α → List (α × Bool)
  | [] => []
  | x :: xs =>
    runBatch exec ((x :: xs).take (b + 1)) ++
      settleBatches exec b ((x :: xs).drop (b + 1))
termination_by l => l.length
decreasing_by
  simp only [List.drop_succ_cons, List.length_drop, List.length_cons]
  omega

/-- The per-result tally loop of `executeConcurrently` (syncManager.ts lines
98-109): every settled result bumps `completed` or `failed` and then calls
`onProgress(completed + failed, total, item)`; the progress arguments are
collected in order. -/
def tallyResults : List (α × Bool) → Nat → Nat → List Nat →
    Nat × Nat × List Nat
  | [], completed, failed, progress => (completed, failed, progress.reverse)
  | (_, ok) :: rest, completed, failed, progress =>
    if ok then
      tallyResults rest (completed + 1) failed
        ((completed + 1 + failed) :: progress)
    else
      tallyResults rest completed (failed + 1)
        ((completed + (failed + 1)) :: progress)

/-- Observable outcome of `executeConcurrently`: the returned counts, the
sequence of first arguments passed to `onProgress`, and the settled
(item, success) pairs in settlement order. -/
structure ConcResult (α : Type) where
  completed : Nat
  failed : Nat
  progress : List Nat
  settled : List (α × Bool)

/-- `SyncManager.executeConcurrently` (syncManager.ts lines 72-113).  For
`concurrency = 0` the source loop never terminates, so the model is only
meaningful for a positive concurrency (every theorem below assumes it). -/
def executeConcurrently (items : List α) (exec : α → Except Unit Bool)
    (concurrency : Nat) : ConcResult α :=
  if concurrency = 0 then
    { completed := 0, failed := 0, progress := [], settled := [] }
  else
    let settled := settleBatches exec (concurrency - 1) items
    let res := tallyResults settled 0 0 []
    { completed := res.1, failed := res.2.1, progress := res.2.2
      settled := settled }

/-- `ConflictResolutionStrategy` in syncManager.ts. -/
inductive ConflictResolutionStrategy
  | ask
  | localWins
  | remoteWins
  | newerWins
deriving DecidableEq, Repr

/-- The value returned by `showConflictDialog`. -/
inductive ConflictChoice
  | upload
  | download
  | cancel
deriving DecidableEq, Repr

/-- The per-conflict routing decided by `autoResolveConflict`. -/
inductive ConflictResolution
  | upload
  | download
  | skip
deriving DecidableEq, Repr

/-- `SyncManager.autoResolveConflict` (syncManager.ts lines 1078-1102):
local-wins → upload, remote-wins → download; newer-wins compares modification
times when both are truthy and otherwise falls back to upload; the default
switch branch returns skip. -/
def autoResolveConflict (c : SyncOperation)
    (strategy : ConflictResolutionStrategy) : ConflictResolution :=
  match strategy with
  | .localWins => .upload
  | .remoteWins => .download
  | .newerWins =>
    if natTruthy c.localModTime ∧ natTruthy c.remoteModTime then
      if c.remoteModTime.getD 0 < c.localModTime.getD 0 then .upload
      else .download
    else .upload
  | .ask => .skip

/-- The `{upload, download, skip}` lists produced by `resolveConflicts`. -/
structure ResolvedConflicts where
  upload : List SyncOperation
  download : List SyncOperation
  skip : List SyncOperation
deriving DecidableEq, Repr

/-- The auto-resolve loop of `resolveConflicts` (syncManager.ts lines
1058-1069): each conflict is pushed onto the upload / download / skip list
according to `autoResolveConflict`, in order. -/
def autoResolveFold (strategy : ConflictResolutionStrategy)
    (conflicts : List SyncOperation) : ResolvedConflicts :=
  conflicts.foldr (fun c acc =>
    match autoResolveConflict c strategy with
    | .upload => { acc with upload := c :: acc.upload }
    | .download => { acc with download := c :: acc.download }
    | .skip => { acc with skip := c :: acc.skip })
    { upload := [], download := [], skip := [] }

/-- `SyncManager.resolveConflicts` (syncManager.ts lines 1020-1073).
The effective strategy is `strategy || getPref("conflictResolution") || "ask"`
(`strategy` and the preference are modelled as options); `dialogChoice` is the
value `showConflictDialog` would return on the interactive path. -/
def resolveConflicts (conflicts : List SyncOperation)
    (strategy prefStrategy : Option ConflictResolutionStrategy)
    (dialogChoice : ConflictChoice) : ResolvedConflicts :=
  let conflictStrategy := strategy.getD (prefStrategy.getD .ask)
  if conflictStrategy = .ask then
    match dialogChoice with
    | .cancel => { upload := [], download := [], skip := conflicts }
    | choice =>
      conflicts.foldr (fun c acc =>
        if choice = .upload then { acc with upload := c :: acc.upload }
        else if choice = .download then
          { acc with download := c :: acc.download }
        else acc) { upload := [], download := [], skip := [] }
  else
    autoResolveFold conflictStrategy conflicts

/-- A concrete record synced in the old namespace (used in concrete
instances below). -/
def exRecord : FileMetadata :=
  { hash := "h1", localMtime := 1, remoteMtime := 2, lastSyncTime := 3
    lastSyncHash := "h1", size := 4 }

/-- A concrete store remembering bucket "ep1/bucket1" and holding one record
produced against it. -/
def exOldStore : SyncMetadataStore :=
  { files := fun k => if k = "OLDKEY" then some exRecord else none
    lastFullSync := 7, version := METADATA_VERSION
    bucketId := some "ep1/bucket1" }

/-- A concrete empty store. -/
def exEmptyStore : SyncMetadataStore :=
  { files := fun _ => none, lastFullSync := 0, version := METADATA_VERSION
    bucketId := none }

/-- A concrete cloud snapshot for bucket "ep2/bucket2" whose last full sync
is 3. -/
def exCloudStore : SyncMetadataStore :=
  { files := fun k => if k = "K2" then some exRecord else none
    lastFullSync := 3, version := METADATA_VERSION
    bucketId := some "ep2/bucket2" }

/-- A concrete record whose `lastSyncTime` (10) is newer than
`exCloudStore.lastFullSync` (3). -/
def exNewerRecord : FileMetadata :=
  { hash := "h9", localMtime := 8, remoteMtime := 9, lastSyncTime := 10
    lastSyncHash := "h9", size := 6 }

/-- A concrete local store with `lastFullSync = 5` and one local-only
record. -/
def exLocalStore : SyncMetadataStore :=
  { files := fun k => if k = "K1" then some exNewerRecord else none
    lastFullSync := 5, version := METADATA_VERSION
    bucketId := some "ep2/bucket2" }

/-- Concrete item list for the bounded-executor scenario: ten operations. -/
def exItems : List Nat := [0, 1, 2, 3, 4, 5, 6, 7, 8, 9]

/-- Concrete per-item executor for the scenario: every multiple of 3 fails
(four of the ten items), the rest succeed. -/
def exExec : Nat → Except Unit Bool :=
  fun n => if n % 3 = 0 then .error () else .ok true

/-- The spec's per-record invariant: `lastSyncTime == 0` iff `lastSyncHash`
is empty. -/
def recOk (r : FileMetadata) : Prop :=
  r.lastSyncTime = 0 ↔ r.lastSyncHash = ""

/-- Every record held by the store satisfies `recOk`. -/
def storeOk (st : SyncMetadataStore) : Prop :=
  ∀ k r, st.files k = some r → recOk r

/-- The empty store satisfies the record invariant. -/
theorem storeOk_empty : storeOk exEmptyStore := by
  intro k r h
  simp [exEmptyStore] at h

/-- C1 counterexample: with the remembered bucket id "ep1/bucket1" non-empty
and different from the configured "ep2/bucket2", but the new namespace's
remote metadata object absent (`blob = none`), `downloadCloudMetadata` leaves
the local store untouched, so the prior-namespace-only record for "OLDKEY" is
still in the metadata set used for planning — contradicting the claim's
"regardless of whether the new namespace's remote snapshot exists or is
absent". -/
theorem C1_switch_absent_snapshot_counterexample :
    exOldStore.bucketId = some "ep1/bucket1" ∧
    "ep1/bucket1" ≠ "ep2/bucket2" ∧
    (downloadCloudMetadata none "ep2/bucket2" exOldStore).store.files "OLDKEY"
      = some exRecord ∧
    (downloadCloudMetadata none "ep2/bucket2" exOldStore).hasCloudMetadata
      = false := by
  refine ⟨rfl, by decide, rfl, rfl⟩

/-- C1 (amended): when the configured bucket id differs from the non-empty
remembered one AND the new namespace's remote snapshot exists, the local
store is replaced wholesale by that snapshot (with its bucket id set to the
current one), so no prior-namespace-only record survives into planning; when
the remote snapshot is absent, the local store is left unchanged and
`hasCloudMetadata` is false. -/
theorem C1_bucket_switch_replace (cloud st : SyncMetadataStore)
    (current lb k : String) (hlb : st.bucketId = some lb) (hne : lb ≠ "")
    (hdiff : lb ≠ current) :
    (downloadCloudMetadata (some cloud) current st).store.files k
      = cloud.files k ∧
    (downloadCloudMetadata (some cloud) current st).store.bucketId
      = some current ∧
    (downloadCloudMetadata (some cloud) current st).store.lastFullSync
      = cloud.lastFullSync ∧
    (downloadCloudMetadata none current st).store = st ∧
    (downloadCloudMetadata none current st).hasCloudMetadata = false := by
  have hsw : bucketSwitched st.bucketId current := by
    rw [hlb]
    exact ⟨hne, hdiff⟩
  simp [downloadCloudMetadata, replaceWithCloudMetadata, hsw]

/-- C1 witness: the amended theorem applied at the concrete switch from
"ep1/bucket1" to "ep2/bucket2". -/
theorem C1_bucket_switch_replace_witness :
    exOldStore.bucketId = some "ep1/bucket1" ∧
    "ep1/bucket1" ≠ "" ∧
    "ep1/bucket1" ≠ "ep2/bucket2" ∧
    ((downloadCloudMetadata (some exCloudStore) "ep2/bucket2"
        exOldStore).store.files "OLDKEY" = exCloudStore.files "OLDKEY" ∧
     (downloadCloudMetadata (some exCloudStore) "ep2/bucket2"
        exOldStore).store.bucketId = some "ep2/bucket2" ∧
     (downloadCloudMetadata (some exCloudStore) "ep2/bucket2"
        exOldStore).store.lastFullSync = exCloudStore.lastFullSync ∧
     (downloadCloudMetadata none "ep2/bucket2" exOldStore).store
        = exOldStore ∧
     (downloadCloudMetadata none "ep2/bucket2" exOldStore).hasCloudMetadata
        = false) :=
  ⟨rfl, by decide, by decide,
    C1_bucket_switch_replace exCloudStore exOldStore "ep2/bucket2"
      "ep1/bucket1" "OLDKEY" rfl (by decide) (by decide)⟩

/-- C5 counterexample: on the replace path (bucket switch) the resulting
`lastFullSync` is the cloud snapshot's value (3), not the max of both sides
(5) — contradicting the claim's "the lastFullSync of the merged or replaced
result equals the max of the local and remote lastFullSync values". -/
theorem C5_replace_lastFullSync_counterexample :
    (replaceWithCloudMetadata exLocalStore exCloudStore).lastFullSync = 3 ∧
    max exCloudStore.lastFullSync exLocalStore.lastFullSync = 5 := by
  refine ⟨rfl, by decide⟩

/-- C5 (amended): on the same-namespace merge path the remote record wins for
every key present in both stores, a key present only locally is kept iff its
`lastSyncTime` is newer than the remote snapshot's `lastFullSync` or that
`lastFullSync` is 0, and the merged `lastFullSync` is the max of both sides;
on the replace path the result's `lastFullSync` is the remote snapshot's
value. -/
theorem C5_merge_replace_semantics (st cloud : SyncMetadataStore)
    (k : String) :
    (∀ r, cloud.files k = some r →
      (mergeWithCloudMetadata st cloud).files k = some r) ∧
    (cloud.files k = none → ∀ lm, st.files k = some lm →
      ((mergeWithCloudMetadata st cloud).files k = some lm ↔
        (cloud.lastFullSync < lm.lastSyncTime ∨ cloud.lastFullSync = 0))) ∧
    (cloud.files k = none → st.files k = none →
      (mergeWithCloudMetadata st cloud).files k = none) ∧
    (mergeWithCloudMetadata st cloud).lastFullSync
      = max cloud.lastFullSync st.lastFullSync ∧
    (replaceWithCloudMetadata st cloud).lastFullSync
      = cloud.lastFullSync := by
  refine ⟨?_, ?_, ?_, rfl, rfl⟩
  · intro r hr
    simp [mergeWithCloudMetadata, hr]
  · intro hc lm hl
    simp only [mergeWithCloudMetadata, hc, hl]
    by_cases h : cloud.lastFullSync < lm.lastSyncTime ∨ cloud.lastFullSync = 0
    · simp [h]
    · simp [h]
  · intro hc hl
    simp [mergeWithCloudMetadata, hc, hl]

/-- C5 witness: the amended theorem applied at concrete stores — the cloud
record for "K2" wins, the local-only record for "K1" (lastSyncTime 10 > cloud
lastFullSync 3) is kept, the merged lastFullSync is max 3 5, the replaced one
is 3. -/
theorem C5_merge_replace_semantics_witness :
    ((mergeWithCloudMetadata exLocalStore exCloudStore).files "K2"
      = some exRecord) ∧
    ((mergeWithCloudMetadata exLocalStore exCloudStore).files "K1"
      = some exNewerRecord ↔ (3 < 10 ∨ (3 : Nat) = 0)) ∧
    ((mergeWithCloudMetadata exLocalStore exCloudStore).lastFullSync
      = max exCloudStore.lastFullSync exLocalStore.lastFullSync) ∧
    ((replaceWithCloudMetadata exLocalStore exCloudStore).lastFullSync
      = exCloudStore.lastFullSync) :=
  ⟨(C5_merge_replace_semantics exLocalStore exCloudStore "K2").1 exRecord rfl,
   (C5_merge_replace_semantics exLocalStore exCloudStore "K1").2.1 rfl
     exNewerRecord rfl,
   (C5_merge_replace_semantics exLocalStore exCloudStore "K1").2.2.2.1,
   (C5_merge_replace_semantics exLocalStore exCloudStore "K1").2.2.2.2⟩

/-- C9 counterexample: `recordSync` accepts an empty hash (its TS signature
takes any string, and `getFileHash` returns "" on a read error), and at clock
5 it then stores a record with `lastSyncTime = 5 ≠ 0` but empty
`lastSyncHash`, violating the invariant the claim says every store operation
preserves. -/
theorem C9_invariant_counterexample :
    ¬ storeOk (recordSync exEmptyStore "K1" "" 10 20 30 5) := by
  intro h
  have h1 : (recordSync exEmptyStore "K1" "" 10 20 30 5).files "K1"
      = some { hash := "", localMtime := 10, remoteMtime := 20
               lastSyncTime := 5, lastSyncHash := "", size := 30 } := rfl
  have h2 := h "K1" _ h1
  simp only [recOk] at h2
  exact absurd (h2.mpr trivial) (by decide)

/-- C9 (amended): the invariant `lastSyncTime = 0 ↔ lastSyncHash = ""` is
preserved by `removeFileMetadata` unconditionally, by `recordSync` provided
the hash is non-empty and the clock positive, by `updateFileMetadata`
provided the patched record satisfies it, and by merge/replace when the
incoming snapshot (and, for merge, the local store) satisfies it; `recordSync`
with an empty hash can violate it. -/
theorem C9_invariant_preservation (st cloud : SyncMetadataStore)
    (k hash : String) (lmt rmt sz now : Nat) (p : FileMetadataPatch)
    (hst : storeOk st) :
    storeOk (removeFileMetadata st k) ∧
    (hash ≠ "" → now ≠ 0 → storeOk (recordSync st k hash lmt rmt sz now)) ∧
    (recOk (applyPatch ((st.files k).getD emptyFileMetadata) p) →
      storeOk (updateFileMetadata st k p)) ∧
    (storeOk cloud → storeOk (mergeWithCloudMetadata st cloud)) ∧
    (storeOk cloud → storeOk (replaceWithCloudMetadata st cloud)) := by
  refine ⟨?_, ?_, ?_, ?_, ?_⟩
  · intro k' r h
    simp only [removeFileMetadata] at h
    split at h
    · exact absurd h (by simp)
    · exact hst k' r h
  · intro hh hn k' r h
    simp only [recordSync] at h
    split at h
    · cases h
      constructor
      · intro h0
        exact absurd h0 hn
      · intro he
        exact absurd he hh
    · exact hst k' r h
  · intro hp k' r h
    simp only [updateFileMetadata] at h
    split at h
    · cases h
      exact hp
    · exact hst k' r h
  · intro hcl k' r h
    rcases hcf : cloud.files k' with _ | cr
    · rcases hsf : st.files k' with _ | lm
      · simp [mergeWithCloudMetadata, hcf, hsf] at h
      · simp only [mergeWithCloudMetadata, hcf, hsf] at h
        split at h
        · cases h
          exact hst k' _ hsf
        · simp at h
    · simp only [mergeWithCloudMetadata, hcf] at h
      cases h
      exact hcl k' _ hcf
  · intro hcl
    exact hcl

/-- C9 witness: the amended theorem applied to the empty store with a
non-empty hash "h1" at clock 4 and an empty patch. -/
theorem C9_invariant_preservation_witness :
    storeOk exEmptyStore ∧
    (storeOk (removeFileMetadata exEmptyStore "K1") ∧
     (("h1" : String) ≠ "" → (4 : Nat) ≠ 0 →
       storeOk (recordSync exEmptyStore "K1" "h1" 1 2 3 4)) ∧
     (recOk (applyPatch ((exEmptyStore.files "K1").getD emptyFileMetadata)
         {}) → storeOk (updateFileMetadata exEmptyStore "K1" {})) ∧
     (storeOk exEmptyStore →
       storeOk (mergeWithCloudMetadata exEmptyStore exEmptyStore)) ∧
     (storeOk exEmptyStore →
       storeOk (replaceWithCloudMetadata exEmptyStore exEmptyStore))) :=
  ⟨storeOk_empty,
   C9_invariant_preservation exEmptyStore exEmptyStore "K1" "h1" 1 2 3 4 {}
     storeOk_empty⟩

/-- Characterization of the planner on the both-sides-present,
record-with-non-empty-lastSyncHash path (syncManager.ts lines 672-737). -/
theorem determineOperation_both_record (key : String) (l : LocalFile)
    (r : S3FileMetadata) (m : FileMetadata) (hc : Bool)
    (fsize : String → Nat) (hl : l.hash ≠ "") (hm : m.lastSyncHash ≠ "") :
    (determineOperation key (some l) (some r) (some m) hc fsize).type =
      if l.hash ≠ m.lastSyncHash then
        if strTruthy r.metaMd5 = true ∧
            orElseStr r.metaMd5 r.etag ≠ m.lastSyncHash then
          .conflict
        else .upload
      else
        if strTruthy r.metaMd5 = true ∧
            orElseStr r.metaMd5 r.etag ≠ m.lastSyncHash then
          .download
        else .noChange := by
  have hts : strTruthy (mdLastSyncHash (some m)) = true := by
    simp [strTruthy, mdLastSyncHash, hm]
  simp only [determineOperation, hts]
  simp only [mdLastSyncHash, Option.map_some', Option.getD_some]
  split_ifs <;> tauto

/-- Characterization of the planner on the both-sides-present, first-sync
path (no usable lastSyncHash; syncManager.ts lines 613-669). -/
theorem determineOperation_both_first (key : String) (l : LocalFile)
    (r : S3FileMetadata) (md : Option FileMetadata) (hc : Bool)
    (fsize : String → Nat) (hl : l.hash ≠ "")
    (hm : strTruthy (mdLastSyncHash md) = false) :
    (determineOperation key (some l) (some r) md hc fsize).type =
      if l.hash = orElseStr r.metaMd5 r.etag then .noChange
      else if ¬ strTruthy r.metaMd5 = true ∧ 0 < r.size ∧ l.filePath ≠ "" ∧
          fsize l.filePath = r.size then .noChange
      else if r.lastModified ≤ l.modTime then .upload
      else .download := by
  simp only [determineOperation, hm]
  split_ifs <;> tauto

/-- C2: with local (non-empty hash), remote, and a record with non-empty
lastSyncHash all present, the planner returns no-change / upload / download /
conflict exactly according to whether `localChanged = (localHash ≠
lastSyncHash)` and `remoteChanged` hold, where `remoteChanged` compares the
remote checksum with the lastSyncHash and is false whenever the remote
exposes no content-derived checksum (no metaMd5). -/
theorem C2_three_way_classification (key : String) (l : LocalFile)
    (r : S3FileMetadata) (m : FileMetadata) (hc : Bool)
    (fsize : String → Nat) (hl : l.hash ≠ "") (hm : m.lastSyncHash ≠ "") :
    ((determineOperation key (some l) (some r) (some m) hc fsize).type
        = .noChange ↔
      (l.hash = m.lastSyncHash ∧
        ¬ (strTruthy r.metaMd5 = true ∧
           orElseStr r.metaMd5 r.etag ≠ m.lastSyncHash))) ∧
    ((determineOperation key (some l) (some r) (some m) hc fsize).type
        = .upload ↔
      (l.hash ≠ m.lastSyncHash ∧
        ¬ (strTruthy r.metaMd5 = true ∧
           orElseStr r.metaMd5 r.etag ≠ m.lastSyncHash))) ∧
    ((determineOperation key (some l) (some r) (some m) hc fsize).type
        = .download ↔
      (l.hash = m.lastSyncHash ∧
        (strTruthy r.metaMd5 = true ∧
         orElseStr r.metaMd5 r.etag ≠ m.lastSyncHash))) ∧
    ((determineOperation key (some l) (some r) (some m) hc fsize).type
        = .conflict ↔
      (l.hash ≠ m.lastSyncHash ∧
        (strTruthy r.metaMd5 = true ∧
         orElseStr r.metaMd5 r.etag ≠ m.lastSyncHash))) := by
  rw [determineOperation_both_record key l r m hc fsize hl hm]
  split_ifs with h1 h2 h3 <;> simp_all

/-- C2 witness: the spec's scenario — record with lastSyncHash h1, local hash
now h2, remote checksum still h1 — plans an upload. -/
theorem C2_three_way_classification_witness :
    (⟨"h2", "p", 10⟩ : LocalFile).hash ≠ "" ∧
    (exRecord.lastSyncHash ≠ "") ∧
    ((determineOperation "K" (some ⟨"h2", "p", 10⟩)
        (some ⟨"K", 5, 4, "e1", some "h1"⟩) (some exRecord) true
        (fun _ => 4)).type = .upload ↔
      (("h2" : String) ≠ exRecord.lastSyncHash ∧
        ¬ (strTruthy (some "h1") = true ∧
           orElseStr (some "h1") "e1" ≠ exRecord.lastSyncHash))) :=
  ⟨by decide, by decide,
    (C2_three_way_classification "K" ⟨"h2", "p", 10⟩
      ⟨"K", 5, 4, "e1", some "h1"⟩ exRecord true (fun _ => 4)
      (by decide) (by decide)).2.1⟩

/-- C3 counterexample: first sync, no metaMd5, differing hashes, remote size
0 and local size 0 — the sizes are equal yet the planner tie-breaks by
modification time and returns download, contradicting the claim's "when the
remote checksum is not content-derived (no metaMd5), no-change when local
size equals remote size". -/
theorem C3_size_fallback_counterexample :
    (⟨"K", 5, 0, "bb", none⟩ : S3FileMetadata).metaMd5 = none ∧
    (fun _ => (0 : Nat)) "p" = (⟨"K", 5, 0, "bb", none⟩ : S3FileMetadata).size ∧
    (determineOperation "K" (some ⟨"aa", "p", 0⟩)
        (some ⟨"K", 5, 0, "bb", none⟩) none true (fun _ => 0)).type
      = .download := by
  refine ⟨rfl, rfl, rfl⟩

/-- C3 (amended): on a first sync (no lastSyncHash) with both sides present
and a readable local file, the planner returns no-change iff the local hash
equals the remote checksum or the size fallback applies — where the fallback
additionally requires a positive remote size and a non-empty local path —
and otherwise tie-breaks by modification time: local newer-or-equal yields
upload, remote strictly newer yields download. -/
theorem C3_first_sync_classification (key : String) (l : LocalFile)
    (r : S3FileMetadata) (md : Option FileMetadata) (hc : Bool)
    (fsize : String → Nat) (hl : l.hash ≠ "")
    (hm : strTruthy (mdLastSyncHash md) = false) :
    ((determineOperation key (some l) (some r) md hc fsize).type
        = .noChange ↔
      (l.hash = orElseStr r.metaMd5 r.etag ∨
        (¬ strTruthy r.metaMd5 = true ∧ 0 < r.size ∧ l.filePath ≠ "" ∧
          fsize l.filePath = r.size))) ∧
    ((determineOperation key (some l) (some r) md hc fsize).type
        = .upload ↔
      (¬ (l.hash = orElseStr r.metaMd5 r.etag ∨
          (¬ strTruthy r.metaMd5 = true ∧ 0 < r.size ∧ l.filePath ≠ "" ∧
            fsize l.filePath = r.size)) ∧
        r.lastModified ≤ l.modTime)) ∧
    ((determineOperation key (some l) (some r) md hc fsize).type
        = .download ↔
      (¬ (l.hash = orElseStr r.metaMd5 r.etag ∨
          (¬ strTruthy r.metaMd5 = true ∧ 0 < r.size ∧ l.filePath ≠ "" ∧
            fsize l.filePath = r.size)) ∧
        l.modTime < r.lastModified)) := by
  rw [determineOperation_both_first key l r md hc fsize hl hm]
  split_ifs with h1 h2 h3 <;> simp_all

/-- C3 witness: the spec's scenario — both sides hold the same content hash
h1, no record — plans no-change. -/
theorem C3_first_sync_classification_witness :
    (⟨"h1", "p", 10⟩ : LocalFile).hash ≠ "" ∧
    strTruthy (mdLastSyncHash none) = false ∧
    ((determineOperation "A" (some ⟨"h1", "p", 10⟩)
        (some ⟨"A", 5, 4, "e1", some "h1"⟩) none true
        (fun _ => 4)).type = .noChange ↔
      (("h1" : String) = orElseStr (some "h1") "e1" ∨
        (¬ strTruthy (some "h1") = true ∧
          0 < (4 : Nat) ∧ ("p" : String) ≠ "" ∧
          (fun _ => (4 : Nat)) "p" = 4))) :=
  ⟨by decide, by decide,
    (C3_first_sync_classification "A" ⟨"h1", "p", 10⟩
      ⟨"A", 5, 4, "e1", some "h1"⟩ none true (fun _ => 4)
      (by decide) (by decide)).1⟩

/-- C4: for a key present on exactly one side (a genuinely present local
file, i.e. non-empty hash, or a remote object), the planner uploads /
downloads when there is no remote-namespace history, no record, or a record
never synced (lastSyncTime 0), and deletes the surviving side exactly when
history exists and the record was synced before (lastSyncTime > 0). -/
theorem C4_one_sided_classification (key : String) (l : LocalFile)
    (r : S3FileMetadata) (md : Option FileMetadata) (hc : Bool)
    (fsize : String → Nat) (hl : l.hash ≠ "") :
    (((determineOperation key (some l) none md hc fsize).type = .upload) ↔
      (hc = false ∨ md = none ∨ mdLastSyncTime md = 0)) ∧
    (((determineOperation key (some l) none md hc fsize).type
        = .deleteLocal) ↔
      (hc = true ∧ ∃ m, md = some m ∧ 0 < m.lastSyncTime)) ∧
    (((determineOperation key none (some r) md hc fsize).type
        = .download) ↔
      (hc = false ∨ md = none ∨ mdLastSyncTime md = 0)) ∧
    (((determineOperation key none (some r) md hc fsize).type
        = .deleteRemote) ↔
      (hc = true ∧ ∃ m, md = some m ∧ 0 < m.lastSyncTime)) := by
  cases hc <;> rcases md with _ | m <;>
    simp only [determineOperation, mdLastSyncTime, Option.map_none',
      Option.map_some', Option.getD_none, Option.getD_some] <;>
    split_ifs <;> simp_all [Nat.pos_iff_ne_zero]

/-- C4 witness: a local-only file with a record synced before (lastSyncTime
3 > 0) and cloud history present plans a delete-local. -/
theorem C4_one_sided_classification_witness :
    (⟨"h1", "p", 10⟩ : LocalFile).hash ≠ "" ∧
    ((determineOperation "K" (some ⟨"h1", "p", 10⟩) none (some exRecord)
        true (fun _ => 4)).type = .deleteLocal ↔
      (true = true ∧ ∃ m, (some exRecord : Option FileMetadata) = some m ∧
        0 < m.lastSyncTime)) :=
  ⟨by decide,
    (C4_one_sided_classification "K" ⟨"h1", "p", 10⟩
      ⟨"K", 5, 4, "e1", none⟩ (some exRecord) true (fun _ => 4)
      (by decide)).2.1⟩

/-- C10: with no remote-namespace history (`hasCloudMetadata = false`) the
planner never returns delete-local or delete-remote, for any inputs. -/
theorem C10_no_delete_without_history (key : String)
    (loc : Option LocalFile) (rem : Option S3FileMetadata)
    (md : Option FileMetadata) (fsize : String → Nat) :
    (determineOperation key loc rem md false fsize).type ≠ .deleteLocal ∧
    (determineOperation key loc rem md false fsize).type ≠ .deleteRemote := by
  rcases loc with _ | l <;> rcases rem with _ | r <;>
    simp only [determineOperation] <;>
    first
      | (split_ifs <;> simp_all)
      | simp_all

/-- C6: each per-item executor issues its metadata-store mutation
(recordSync / removeFileMetadata) exactly when it returns success; on any
failure or thrown call the store is untouched. -/
theorem C6_executor_record_iff_success (envU : UploadEnv)
    (envD : DownloadEnv) (envL : DeleteLocalEnv) (envR : DeleteRemoteEnv)
    (op : SyncOperation) :
    ((executeUpload envU op).action.isSome
      ↔ (executeUpload envU op).success = true) ∧
    ((executeDownload envD op).action.isSome
      ↔ (executeDownload envD op).success = true) ∧
    ((executeDeleteLocal envL op).action.isSome
      ↔ (executeDeleteLocal envL op).success = true) ∧
    ((executeDeleteRemote envR op).action.isSome
      ↔ (executeDeleteRemote envR op).success = true) := by
  refine ⟨?_, ?_, ?_, ?_⟩
  · simp only [executeUpload]
    split_ifs with h1 h2
    · rcases envU.uploadResult with e | b
      · simp
      · cases b
        · simp
        · rcases envU.remoteMtime with e | rm
          · simp
          · simp
    · simp
    · simp
  · simp only [executeDownload]
    rcases envD.download with e | b
    · simp
    · cases b
      · simp
      · rcases envD.getFilePath with e2 | fp <;>
          rcases envD.writeFile with e3 | u <;>
          split_ifs <;> simp_all
        all_goals split_ifs <;> simp_all
  · simp only [executeDeleteLocal]
    split_ifs with h1 h2
    · rcases envL.removeFile with e | u
      · simp
      · simp
    · simp
    · simp
  · simp only [executeDeleteRemote]
    rcases envR.deleteResult with e | b
    · simp
    · cases b
      · simp
      · simp

/-- C6 companion: applying no store action leaves the store unchanged, so a
failed executor leaves the key's record exactly as it was. -/
theorem applyStoreAction_none (st : SyncMetadataStore) (now : Nat) :
    applyStoreAction st now none = st := rfl

/-- Batching does not change what settles: slicing the list into batches of
any positive size and concatenating the settled batches settles every item
exactly once, in order. -/
theorem settleBatches_eq_runBatch (exec : α → Except Unit Bool) (b : Nat) :
    ∀ (n : Nat) (l : List α), l.length ≤ n →
      settleBatches exec b l = runBatch exec l := by
  intro n
  induction n with
  | zero =>
    intro l hl
    have hnil : l = [] := List.eq_nil_of_length_eq_zero (Nat.le_zero.mp hl)
    subst hnil
    simp [settleBatches, runBatch]
  | succ n ih =>
    intro l hl
    match l with
    | [] => simp [settleBatches, runBatch]
    | x :: xs =>
      rw [settleBatches]
      have hdrop : ((x :: xs).drop (b + 1)).length ≤ n := by
        simp only [List.drop_succ_cons, List.length_drop]
        simp only [List.length_cons] at hl
        omega
      rw [ih _ hdrop]
      unfold runBatch
      rw [← List.map_append, List.take_append_drop]

/-- The tally loop: the final counts add the numbers of successful and failed
results, and each settled result triggers exactly one progress call whose
settled count continues counting up by one. -/
theorem tallyResults_spec (l : List (α × Bool)) :
    ∀ (completed failed : Nat) (progress : List Nat),
      tallyResults l completed failed progress =
        (completed + (l.filter (fun p => p.2)).length,
         failed + (l.filter (fun p => ! p.2)).length,
         progress.reverse ++
           List.range' (completed + failed + 1) l.length) := by
  induction l with
  | nil =>
    intro c f prog
    simp [tallyResults]
  | cons hd tl ih =>
    intro c f prog
    obtain ⟨t, ok⟩ := hd
    cases ok
    · rw [show tallyResults ((t, false) :: tl) c f prog
          = tallyResults tl c (f + 1) ((c + (f + 1)) :: prog) from rfl, ih]
      simp only [Prod.mk.injEq]
      refine ⟨?_, ?_, ?_⟩
      · simp [List.filter_cons]
      · simp [List.filter_cons]
        omega
      · simp only [List.length_cons]
        rw [List.reverse_cons, List.append_assoc, List.range'_succ,
          List.singleton_append]
        rfl
    · rw [show tallyResults ((t, true) :: tl) c f prog
          = tallyResults tl (c + 1) f ((c + 1 + f) :: prog) from rfl, ih]
      simp only [Prod.mk.injEq]
      have e : c + 1 + f = c + f + 1 := by omega
      refine ⟨?_, ?_, ?_⟩
      · simp [List.filter_cons]
        omega
      · simp [List.filter_cons]
      · simp only [List.length_cons]
        rw [List.reverse_cons, List.append_assoc, List.range'_succ,
          List.singleton_append, e]

/-- Successes and failures partition the settled results. -/
theorem length_filter_not_add (l : List α) (p : α → Bool) :
    (l.filter p).length + (l.filter (fun a => ! p a)).length = l.length := by
  induction l with
  | nil => rfl
  | cons a t ih =>
    by_cases h : p a = true <;> simp [List.filter_cons, h, ← ih] <;> omega

/-- C7: for a positive concurrency limit, the bounded executor settles every
item exactly once and in order (a failing or throwing item never prevents a
sibling from being attempted), returns completed / failed counts that count
exactly the successful and the failed-or-thrown items and sum to the total,
and calls the progress callback exactly once per item with settled counts
1, 2, ..., total (strictly increasing, hence never decreasing). -/
theorem C7_bounded_executor {α : Type} (items : List α)
    (exec : α → Except Unit Bool) (concurrency : Nat)
    (hc : 0 < concurrency) :
    ((executeConcurrently items exec concurrency).settled.map Prod.fst
      = items) ∧
    ((executeConcurrently items exec concurrency).settled
      = runBatch exec items) ∧
    ((executeConcurrently items exec concurrency).completed
      = (items.filter (fun t => (runItem exec t).2)).length) ∧
    ((executeConcurrently items exec concurrency).failed
      = (items.filter (fun t => ! (runItem exec t).2)).length) ∧
    ((executeConcurrently items exec concurrency).completed
        + (executeConcurrently items exec concurrency).failed
      = items.length) ∧
    ((executeConcurrently items exec concurrency).progress
      = List.range' 1 items.length) := by
  have hnz : concurrency ≠ 0 := by omega
  have hset : settleBatches exec (concurrency - 1) items
      = runBatch exec items :=
    settleBatches_eq_runBatch exec (concurrency - 1) items.length items le_rfl
  have hrun : executeConcurrently items exec concurrency =
      { completed := ((runBatch exec items).filter (fun p => p.2)).length
        failed := ((runBatch exec items).filter (fun p => ! p.2)).length
        progress := List.range' 1 (runBatch exec items).length
        settled := runBatch exec items } := by
    unfold executeConcurrently
    rw [if_neg hnz]
    simp only [hset, tallyResults_spec]
    simp
  rw [hrun]
  dsimp only
  refine ⟨?_, rfl, ?_, ?_, ?_, ?_⟩
  · unfold runBatch
    rw [List.map_map]
    have hcomp : (Prod.fst ∘ runItem exec) = fun t : α => t :=
      funext fun t => rfl
    rw [hcomp]
    exact List.map_id' items
  · unfold runBatch
    rw [List.filter_map, List.length_map]
    rfl
  · unfold runBatch
    rw [List.filter_map, List.length_map]
    rfl
  · have := length_filter_not_add (runBatch exec items) (fun p => p.2)
    simpa [runBatch] using this
  · simp [runBatch]

/-- C7 witness: the theorem applied to the spec's scenario of ten operations
with concurrency 3, four of which fail. -/
theorem C7_bounded_executor_witness :
    0 < 3 ∧
    (((executeConcurrently exItems exExec 3).settled.map Prod.fst
      = exItems) ∧
    ((executeConcurrently exItems exExec 3).settled
      = runBatch exExec exItems) ∧
    ((executeConcurrently exItems exExec 3).completed
      = (exItems.filter (fun t => (runItem exExec t).2)).length) ∧
    ((executeConcurrently exItems exExec 3).failed
      = (exItems.filter (fun t => ! (runItem exExec t).2)).length) ∧
    ((executeConcurrently exItems exExec 3).completed
        + (executeConcurrently exItems exExec 3).failed
      = exItems.length) ∧
    ((executeConcurrently exItems exExec 3).progress
      = List.range' 1 exItems.length)) :=
  ⟨by decide, C7_bounded_executor exItems exExec 3 (by decide)⟩

/-- Unfolding one step of the auto-resolve loop. -/
theorem autoResolveFold_cons (s : ConflictResolutionStrategy)
    (c : SyncOperation) (t : List SyncOperation) :
    autoResolveFold s (c :: t) =
      match autoResolveConflict c s with
      | .upload => { autoResolveFold s t with
          upload := c :: (autoResolveFold s t).upload }
      | .download => { autoResolveFold s t with
          download := c :: (autoResolveFold s t).download }
      | .skip => { autoResolveFold s t with
          skip := c :: (autoResolveFold s t).skip } := rfl

/-- C8: conflict resolution — local-wins routes every conflict to upload,
remote-wins to download, newer-wins routes per conflict by comparing
modification times (falling back to upload when either timestamp is missing
or zero), and a cancelled interactive resolution routes every conflict to
skipped. -/
theorem C8_conflict_resolution (conflicts : List SyncOperation)
    (pref : Option ConflictResolutionStrategy) (choice : ConflictChoice) :
    (resolveConflicts conflicts (some .localWins) pref choice
      = { upload := conflicts, download := [], skip := [] }) ∧
    (resolveConflicts conflicts (some .remoteWins) pref choice
      = { upload := [], download := conflicts, skip := [] }) ∧
    ((resolveConflicts conflicts (some .newerWins) pref choice).upload
      = conflicts.filter (fun c => decide
          (¬ (natTruthy c.localModTime = true ∧
              natTruthy c.remoteModTime = true) ∨
            c.remoteModTime.getD 0 < c.localModTime.getD 0)) ∧
     (resolveConflicts conflicts (some .newerWins) pref choice).download
      = conflicts.filter (fun c => decide
          ((natTruthy c.localModTime = true ∧
              natTruthy c.remoteModTime = true) ∧
            c.localModTime.getD 0 ≤ c.remoteModTime.getD 0)) ∧
     (resolveConflicts conflicts (some .newerWins) pref choice).skip
      = []) ∧
    (resolveConflicts conflicts (some .ask) pref .cancel
      = { upload := [], download := [], skip := conflicts }) := by
  have hask : ∀ s : ConflictResolutionStrategy, s ≠ .ask →
      ∀ cs, resolveConflicts cs (some s) pref choice = autoResolveFold s cs := by
    intro s hs cs
    simp [resolveConflicts, hs]
  refine ⟨?_, ?_, ⟨?_, ?_, ?_⟩, ?_⟩
  · rw [hask .localWins (by decide)]
    induction conflicts with
    | nil => rfl
    | cons c t ih =>
      rw [autoResolveFold_cons]
      have ha : autoResolveConflict c .localWins = .upload := rfl
      rw [ha, ih]
  · rw [hask .remoteWins (by decide)]
    induction conflicts with
    | nil => rfl
    | cons c t ih =>
      rw [autoResolveFold_cons]
      have ha : autoResolveConflict c .remoteWins = .download := rfl
      rw [ha, ih]
  · rw [hask .newerWins (by decide)]
    induction conflicts with
    | nil => rfl
    | cons c t ih =>
      rw [autoResolveFold_cons, List.filter_cons]
      by_cases h : natTruthy c.localModTime = true ∧
          natTruthy c.remoteModTime = true
      · by_cases h2 : c.remoteModTime.getD 0 < c.localModTime.getD 0
        · have ha : autoResolveConflict c .newerWins = .upload := by
            simp [autoResolveConflict, h, h2]
          rw [ha]
          simp [ih, h, h2]
        · have ha : autoResolveConflict c .newerWins = .download := by
            simp [autoResolveConflict, h, h2]
          rw [ha]
          simp [ih, h, h2]
      · have ha : autoResolveConflict c .newerWins = .upload := by
          simp [autoResolveConflict, h]
        rw [ha]
        rcases not_and_or.mp h with h3 | h3 <;>
          · simp only [Bool.not_eq_true] at h3
            simp [ih, h3]
  · rw [hask .newerWins (by decide)]
    induction conflicts with
    | nil => rfl
    | cons c t ih =>
      rw [autoResolveFold_cons, List.filter_cons]
      by_cases h : natTruthy c.localModTime = true ∧
          natTruthy c.remoteModTime = true
      · by_cases h2 : c.remoteModTime.getD 0 < c.localModTime.getD 0
        · have ha : autoResolveConflict c .newerWins = .upload := by
            simp [autoResolveConflict, h, h2]
          have h3 : ¬ (c.localModTime.getD 0 ≤ c.remoteModTime.getD 0) :=
            Nat.not_le.mpr h2
          rw [ha]
          simp [ih, h, h3]
        · have ha : autoResolveConflict c .newerWins = .download := by
            simp [autoResolveConflict, h, h2]
          have h3 : c.localModTime.getD 0 ≤ c.remoteModTime.getD 0 :=
            Nat.not_lt.mp h2
          rw [ha]
          simp [ih, h, h3]
      · have ha : autoResolveConflict c .newerWins = .upload := by
          simp [autoResolveConflict, h]
        rw [ha]
        rcases not_and_or.mp h with h3 | h3 <;>
          · simp only [Bool.not_eq_true] at h3
            simp [ih, h3]
  · rw [hask .newerWins (by decide)]
    induction conflicts with
    | nil => rfl
    | cons c t ih =>
      rw [autoResolveFold_cons]
      by_cases h : natTruthy c.localModTime = true ∧
          natTruthy c.remoteModTime = true
      · by_cases h2 : c.remoteModTime.getD 0 < c.localModTime.getD 0
        · have ha : autoResolveConflict c .newerWins = .upload := by
            simp [autoResolveConflict, h, h2]
          rw [ha, ih]
        · have ha : autoResolveConflict c .newerWins = .download := by
            simp [autoResolveConflict, h, h2]
          rw [ha, ih]
      · have ha : autoResolveConflict c .newerWins = .upload := by
          simp [autoResolveConflict, h]
        rw [ha, ih]
  · rfl

end ZoteroS3Sync
